import Mathlib

/-!
Verification development for the competitive-intelligence-agent repository.

The frontend `state.ts` StateManager and the report HTML template are
embedded directly from the source files.  The backend core (analysis
orchestrator, deep-research job manager, insight refresh, retrieval and
chat engines) is not present in the source tree, only its HTTP callers
are; those parts are modelled from the specification, and each such
definition is marked `Modelled from the spec:` in its doc comment.
-/

set_option maxHeartbeats 1000000

/-! ### StateManager (frontend/src/state.ts) -/

/-- The `isLoading` record of `AppState` in state.ts: four boolean flags. -/
structure LoadFlags where
  dashboard : Bool
  insights : Bool
  research : Bool
  chat : Bool
deriving DecidableEq, Repr

/-- The `errors` record of `AppState` in state.ts: four nullable strings. -/
structure ErrorFields where
  dashboard : Option String
  insights : Option String
  research : Option String
  chat : Option String
deriving DecidableEq, Repr

/-- `AppState` from state.ts.  The TypeScript fields typed `any` are kept
abstract by parametrising over the payload types. -/
structure AppState (α β γ δ : Type) where
  companyId : Option String
  companyDetails : Option α
  competitors : List β
  news : List γ
  insights : List δ
  isLoading : LoadFlags
  errors : ErrorFields
deriving DecidableEq, Repr

/-- The state built by the `StateManager` constructor (state.ts lines 25-45),
which is also the state installed by `resetState` (lines 98-119). -/
def initialAppState {α β γ δ : Type} : AppState α β γ δ :=
  { companyId := none
    companyDetails := none
    competitors := []
    news := []
    insights := []
    isLoading := { dashboard := false, insights := false, research := false, chat := false }
    errors := { dashboard := none, insights := none, research := none, chat := none } }

/-- Keys of the `isLoading` / `errors` records (`keyof AppState['isLoading']`). -/
inductive StatusKey
  | dashboard
  | insights
  | research
  | chat
deriving DecidableEq, Repr

/-- Update one flag of `LoadFlags` at the given key. -/
def setLoadFlag (k : StatusKey) (v : Bool) (f : LoadFlags) : LoadFlags :=
  match k with
  | .dashboard => { f with dashboard := v }
  | .insights => { f with insights := v }
  | .research => { f with research := v }
  | .chat => { f with chat := v }

/-- Update one field of `ErrorFields` at the given key. -/
def setErrorField (k : StatusKey) (m : Option String) (f : ErrorFields) : ErrorFields :=
  match k with
  | .dashboard => { f with dashboard := m }
  | .insights => { f with insights := m }
  | .research => { f with research := m }
  | .chat => { f with chat := m }

/-- The state-update methods of `StateManager` (state.ts lines 62-96), as data. -/
inductive UpdateOp (α β γ δ : Type)
  | setCompanyId (id : Option String)
  | setCompanyDetails (details : α)
  | setCompetitors (cs : List β)
  | setNews (ns : List γ)
  | setInsights (xs : List δ)
  | setLoading (key : StatusKey) (value : Bool)
  | setError (key : StatusKey) (message : Option String)

/-- Effect of one `StateManager` update method on the held state. -/
def applyUpdate {α β γ δ : Type} (op : UpdateOp α β γ δ) (s : AppState α β γ δ) :
    AppState α β γ δ :=
  match op with
  | .setCompanyId id => { s with companyId := id }
  | .setCompanyDetails d => { s with companyDetails := some d }
  | .setCompetitors cs => { s with competitors := cs }
  | .setNews ns => { s with news := ns }
  | .setInsights xs => { s with insights := xs }
  | .setLoading k v => { s with isLoading := setLoadFlag k v s.isLoading }
  | .setError k m => { s with errors := setErrorField k m s.errors }

/-- A sequence of update-method calls applied in order. -/
def applyUpdates {α β γ δ : Type} (ops : List (UpdateOp α β γ δ)) (s : AppState α β γ δ) :
    AppState α β γ δ :=
  ops.foldl (fun acc op => applyUpdate op acc) s

/-- `resetState` (state.ts lines 98-119): installs a fresh copy of the
constructor state, regardless of the current state. -/
def resetAppState {α β γ δ : Type} (_s : AppState α β γ δ) : AppState α β γ δ :=
  initialAppState

/-- `getState` (state.ts lines 47-49) returns a shallow copy `{...this.state}`
of the held state; field-for-field it equals the held state. -/
def getState {α β γ δ : Type} (s : AppState α β γ δ) : AppState α β γ δ :=
  { companyId := s.companyId
    companyDetails := s.companyDetails
    competitors := s.competitors
    news := s.news
    insights := s.insights
    isLoading := s.isLoading
    errors := s.errors }

/-- A whole `StateManager` instance: the held state plus the subscriber list.
Callbacks are identified by reference; we model a reference as a `Nat`.
`subscribe` pushes onto the end of the array (state.ts line 52). -/
structure ManagerModel (α β γ δ : Type) where
  state : AppState α β γ δ
  subscribers : List Nat

/-- `subscribe(callback)` (state.ts lines 51-56): append the callback. -/
def subscribeCb {α β γ δ : Type} (cb : Nat) (m : ManagerModel α β γ δ) :
    ManagerModel α β γ δ :=
  { m with subscribers := m.subscribers ++ [cb] }

/-- The unsubscribe closure returned by `subscribe` (state.ts line 53-55):
`this.subscribers = this.subscribers.filter(sub => sub !== callback)`. -/
def unsubscribeCb {α β γ δ : Type} (cb : Nat) (m : ManagerModel α β γ δ) :
    ManagerModel α β γ δ :=
  { m with subscribers := m.subscribers.filter (fun s => s ≠ cb) }

/-- One update-method call on the manager: it mutates the state and then
`notifySubscribers` (state.ts lines 58-60) invokes each subscribed callback
once, in array order.  Returns the new manager and the invocation sequence. -/
def applyUpdateM {α β γ δ : Type} (op : UpdateOp α β γ δ) (m : ManagerModel α β γ δ) :
    ManagerModel α β γ δ × List Nat :=
  ({ m with state := applyUpdate op m.state }, m.subscribers)

/-! ### Deep-research job state machine (backend, modelled from the spec) -/

/-- The four values of `deep_research_status` (spec section 3; rendered by
main.ts `createCompetitorCardHTML` and polled by `pollCompetitorStatus`). -/
inductive DRStatus
  | not_started
  | pending
  | completed
  | error
deriving DecidableEq, Repr

/-- Modelled from the spec: the per-competitor job-manager record.  The
backend Deep-Research Job Manager is not in the source tree; fields follow
spec sections 3 and 4.2: the status, the nullable
`deep_research_document` markdown, the number of in-flight jobs, and a
cumulative count of jobs ever enqueued (for stating idempotence). -/
structure ResearchState where
  status : DRStatus
  doc : Option String
  inFlight : Nat
  jobsStarted : Nat
deriving DecidableEq, Repr

/-- A freshly identified competitor: `deep_research_status = not_started`,
no document, no job. -/
def initialResearch : ResearchState :=
  { status := .not_started, doc := none, inFlight := 0, jobsStarted := 0 }

/-- Result of a trigger call: the new record, the status the caller
observes in the response, and whether a job was actually enqueued. -/
structure TriggerOutcome where
  state : ResearchState
  observed : DRStatus
  started : Bool
deriving DecidableEq, Repr

/-- Modelled from the spec: `POST /competitor/{id}/deep-research`
(spec section 4.2).  From `not_started` or `error` a fresh job is enqueued
and the status becomes `pending`; a trigger on an already-`pending`
competitor is a no-op returning `pending`; a trigger on a `completed`
competitor starts a new job only under an explicit regenerate intent. -/
def triggerResearch (regenerate : Bool) (c : ResearchState) : TriggerOutcome :=
  match c.status with
  | .not_started =>
      { state := { status := .pending, doc := c.doc, inFlight := c.inFlight + 1,
                   jobsStarted := c.jobsStarted + 1 },
        observed := .pending, started := true }
  | .pending => { state := c, observed := .pending, started := false }
  | .completed =>
      if regenerate then
        { state := { status := .pending, doc := c.doc, inFlight := c.inFlight + 1,
                     jobsStarted := c.jobsStarted + 1 },
          observed := .pending, started := true }
      else
        { state := c, observed := .completed, started := false }
  | .error =>
      { state := { status := .pending, doc := c.doc, inFlight := c.inFlight + 1,
                   jobsStarted := c.jobsStarted + 1 },
        observed := .pending, started := true }

/-- Events observable on one competitor's research record: an HTTP trigger,
the in-flight job finishing with the report text, or the job failing. -/
inductive DREvent
  | trigger (regenerate : Bool)
  | finishJob (docText : String)
  | failJob

/-- Modelled from the spec: one step of the job manager.  A finishing job
stores the markdown and moves `pending → completed`; a failing job moves
`pending → error`; both are ignored outside `pending`. -/
def drStep (e : DREvent) (c : ResearchState) : ResearchState :=
  match e with
  | .trigger r => (triggerResearch r c).state
  | .finishJob d =>
      if c.status = .pending then
        { status := .completed, doc := some d, inFlight := c.inFlight - 1,
          jobsStarted := c.jobsStarted }
      else c
  | .failJob =>
      if c.status = .pending then
        { status := .error, doc := c.doc, inFlight := c.inFlight - 1,
          jobsStarted := c.jobsStarted }
      else c

/-- The transition edges the spec allows for `deep_research_status`
(plus stuttering): not_started → pending, pending → completed,
pending → error, error → pending. -/
def allowedEdge : DRStatus → DRStatus → Bool
  | .not_started, .pending => true
  | .pending, .completed => true
  | .pending, .error => true
  | .error, .pending => true
  | s, s2 => decide (s = s2)

/-- Invariant justifying at-most-one in-flight job per competitor. -/
def drInv (c : ResearchState) : Prop :=
  c.inFlight ≤ 1 ∧ (c.status = .pending ↔ c.inFlight = 1)

/-- Invariant: a completed competitor always holds its markdown document. -/
def researchDocInv (c : ResearchState) : Prop :=
  c.status = .completed → c.doc.isSome = true

/-! ### Insight refresh (backend, modelled from the spec) -/

/-- An Insight record (spec section 3): identifier, title, description,
category and severity tags. -/
structure InsightRec where
  id : String
  title : String
  description : String
  category : String
  severity : String
deriving DecidableEq, Repr

/-- Modelled from the spec: the Corpus Store's per-company insight sets
together with the per-company single-flight refresh guard
(spec sections 4.1 and 5).  The backend store is not in the source tree. -/
structure InsightStoreState where
  insightsOf : String → List InsightRec
  refreshInFlight : String → Bool

/-- Observable events on the insight store: a refresh request arriving
(`beginRefresh`) and a finished refresh atomically installing its whole
new set (`commitRefresh`). -/
inductive RefreshEvent
  | beginRefresh (companyId : String)
  | commitRefresh (companyId : String) (newSet : List InsightRec)

/-- Modelled from the spec: one atomic step of the insight store.  A
refresh request for a company whose refresh is already in flight is
rejected (the state is unchanged); a commit replaces the company's whole
insight set in a single step and releases the guard. -/
def refreshStep (e : RefreshEvent) (st : InsightStoreState) : InsightStoreState :=
  match e with
  | .beginRefresh c =>
      if st.refreshInFlight c then st
      else { st with refreshInFlight := fun c2 => if c2 = c then true else st.refreshInFlight c2 }
  | .commitRefresh c newSet =>
      if st.refreshInFlight c then
        { insightsOf := fun c2 => if c2 = c then newSet else st.insightsOf c2,
          refreshInFlight := fun c2 => if c2 = c then false else st.refreshInFlight c2 }
      else st

/-- Run a sequence of store events in order. -/
def refreshRun (es : List RefreshEvent) (st : InsightStoreState) : InsightStoreState :=
  es.foldl (fun s e => refreshStep e s) st

/-- The whole insight sets committed for company `c` along a trace. -/
def committedSets (c : String) (es : List RefreshEvent) : List (List InsightRec) :=
  es.filterMap (fun e =>
    match e with
    | .commitRefresh c2 newSet => if c2 = c then some newSet else none
    | .beginRefresh _ => none)

/-- A reader of `GET /insights/company/{id}`: returns the current set. -/
def readInsights (c : String) (st : InsightStoreState) : List InsightRec :=
  st.insightsOf c

/-! ### Analysis orchestrator entry point (backend, modelled from the spec) -/

/-- A Company record (spec section 3). -/
structure CompanyRec where
  id : Nat
  name : String
  description : String
  industry : Option String
deriving DecidableEq, Repr

/-- Modelled from the spec: the in-memory store the orchestrator writes
into, with the per-company stage tables kept abstract in their payload
types.  `nextId` allocates fresh company identifiers. -/
structure AnalysisStore (κ ν ι : Type) where
  companies : List CompanyRec
  competitorTable : List (Nat × List κ)
  newsTable : List (Nat × List ν)
  insightTable : List (Nat × List ι)
  nextId : Nat

/-- Look a company id up in a stage table; absence means the stage has not
produced data yet, read as the empty list. -/
def tableLookup {π : Type} (k : Nat) (t : List (Nat × List π)) : List π :=
  match t.find? (fun e => e.1 = k) with
  | some e => e.2
  | none => []

/-- Whitespace trimming of a name, over the character list (the validation
step of spec section 4.1: non-empty, trimmed name). -/
def trimString (s : String) : String :=
  String.mk
    (((s.data.dropWhile (fun c => c.isWhitespace)).reverse.dropWhile
      (fun c => c.isWhitespace)).reverse)

/-- The placeholder description a company is created with before the
profile stage has run (spec section 4.1). -/
def placeholderDescription : String := "Analysis in progress"

/-- The welcome message returned by `POST /company`. -/
def welcomeMessage (name : String) : String :=
  "Welcome! Analyzing the competitive landscape for " ++ name ++ "."

/-- The response body of `POST /company` (spec section 6):
`{id, name, welcome_message}`. -/
structure StartResponse where
  id : Nat
  name : String
  welcome_message : String
deriving DecidableEq, Repr

/-- Modelled from the spec: `startAnalysis` (spec section 4.1), the handler
of `POST /company`, which is not in the source tree.  It validates the
non-empty trimmed name, immediately creates the Company record with a
placeholder description, and returns synchronously; no pipeline stage has
run, so no stage table gains an entry for the new id. -/
def startAnalysis {κ ν ι : Type} (name : String) (st : AnalysisStore κ ν ι) :
    Option (StartResponse × AnalysisStore κ ν ι) :=
  if trimString name = "" then none
  else
    let cid := st.nextId
    some ({ id := cid, name := trimString name, welcome_message := welcomeMessage (trimString name) },
      { st with
        companies := st.companies ++
          [{ id := cid, name := trimString name, description := placeholderDescription,
             industry := none }],
        nextId := st.nextId + 1 })

/-- Well-formedness of the store: every identifier already used is below
the allocator, so the next allocated id is fresh. -/
def storeWF {κ ν ι : Type} (st : AnalysisStore κ ν ι) : Prop :=
  (∀ c ∈ st.companies, c.id < st.nextId) ∧
  (∀ e ∈ st.competitorTable, e.1 < st.nextId) ∧
  (∀ e ∈ st.newsTable, e.1 < st.nextId) ∧
  (∀ e ∈ st.insightTable, e.1 < st.nextId)

/-! ### Retrieval engine (backend, modelled from the spec) -/

/-- Provenance of a corpus chunk (spec section 3): source type, source
entity id, owning company id. -/
structure Provenance where
  source_type : String
  source_id : String
  company_id : String
deriving DecidableEq, Repr

/-- A CorpusDocument chunk: text, embedding vector, provenance. -/
structure CorpusChunk where
  text : String
  embedding : List Int
  provenance : Provenance
deriving DecidableEq, Repr

/-- Dot product of two embedding vectors (the ranking score; the spec
allows cosine similarity or equivalent). -/
def dotProduct : List Int → List Int → Int
  | x :: xs, y :: ys => x * y + dotProduct xs ys
  | _, _ => 0

/-- Score of a chunk against a query embedding. -/
def chunkScore (queryEmbedding : List Int) (c : CorpusChunk) : Int :=
  dotProduct c.embedding queryEmbedding

/-- Insert a chunk into a score-descending list, keeping the order. -/
def insertRanked (score : CorpusChunk → Int) (c : CorpusChunk) :
    List CorpusChunk → List CorpusChunk
  | [] => [c]
  | d :: ds =>
      if score d < score c then c :: d :: ds else d :: insertRanked score c ds

/-- Sort chunks by descending score (insertion sort). -/
def rankByScore (score : CorpusChunk → Int) : List CorpusChunk → List CorpusChunk
  | [] => []
  | c :: cs => insertRanked score c (rankByScore score cs)

/-- Modelled from the spec: `retrieve(companyId, queryText, k)`
(spec section 4.3), not in the source tree.  Scopes the corpus to the
query's company, ranks by similarity of the query embedding, returns the
top `k`.  On an empty scoped corpus it returns the empty list, not an
error. -/
def retrieve (embed : String → List Int) (corpus : List CorpusChunk)
    (companyId query : String) (k : Nat) : List CorpusChunk :=
  let inScope := corpus.filter (fun c => c.provenance.company_id = companyId)
  (rankByScore (chunkScore (embed query)) inScope).take k

/-! ### Chat answering engine (backend, modelled from the spec) -/

/-- The response of `POST /chat/{companyId}`: `{answer, sources}`. -/
structure ChatAnswer where
  answer : String
  sources : List Provenance
deriving DecidableEq, Repr

/-- The explicit no-data framing the engine uses when retrieval returns
zero chunks (spec section 4.4). -/
def noDataFraming : String :=
  "No specific data is available for this company yet. State explicitly that you have insufficient data to answer."

/-- Modelled from the spec: prompt construction (spec section 4.4).  With
context the provider is instructed to answer only from it; with zero
chunks the prompt is the explicit no-data framing, containing no
company-specific material. -/
def buildPrompt (contextChunks : List CorpusChunk) (query : String) : String :=
  match contextChunks with
  | [] => noDataFraming ++ " Question: " ++ query
  | cs =>
      "Answer only from the supplied context, and say so explicitly if it is insufficient. Context: "
        ++ String.intercalate "\n" (cs.map (fun c => c.text))
        ++ " Question: " ++ query

/-- Modelled from the spec: `answer(companyId, queryText)`
(spec section 4.4), not in the source tree.  Retrieves top-k chunks,
always calls the generative provider, and returns the answer with the
provenance of the chunks actually used. -/
def answerChat (provider : String → String) (embed : String → List Int)
    (corpus : List CorpusChunk) (companyId query : String) (k : Nat) : ChatAnswer :=
  let chunks := retrieve embed corpus companyId query k
  { answer := provider (buildPrompt chunks query),
    sources := chunks.map (fun c => c.provenance) }

/-! ### Competitor list endpoint (backend, modelled from the spec) -/

/-- A stored Competitor record (spec section 3). -/
structure CompetitorRec where
  id : String
  companyId : String
  name : String
  description : Option String
  strengths : List String
  weaknesses : List String
  research : ResearchState
deriving DecidableEq, Repr

/-- One element of the `GET /company/{id}/competitors` response: it always
carries `deep_research_status`, and carries `deep_research_markdown` only
when the research is completed. -/
structure CompetitorJson where
  id : String
  name : String
  description : Option String
  deep_research_status : DRStatus
  deep_research_markdown : Option String
deriving DecidableEq, Repr

/-- Modelled from the spec: serialization of one competitor for
`GET /company/{id}/competitors` (spec section 6), not in the source tree.
The markdown field is populated exactly when the status is completed. -/
def serializeCompetitor (c : CompetitorRec) : CompetitorJson :=
  { id := c.id, name := c.name, description := c.description,
    deep_research_status := c.research.status,
    deep_research_markdown :=
      if c.research.status = .completed then c.research.doc else none }

/-- Modelled from the spec: the `GET /company/{id}/competitors` handler,
returning the owning company's competitors, serialized. -/
def getCompanyCompetitors (competitors : List CompetitorRec) (companyId : String) :
    List CompetitorJson :=
  (competitors.filter (fun c => c.companyId = companyId)).map serializeCompetitor

/-! ### Report template (backend/templates/report_template.html.bak) -/

/-- A piece of generated content in a CSS paged-media `content:` value:
literal text, the current page counter, the total page counter, or a
`target-counter(attr(href), page)` cross reference. -/
inductive PageContent
  | text (s : String)
  | counterPage
  | counterPages
  | targetCounterHrefPage
deriving DecidableEq, Repr

/-- An `@page` rule of the template: its name and the running header and
footer contents (empty list = no content generated at that position). -/
structure PageStyle where
  name : String
  topCenter : List PageContent
  bottomLeft : List PageContent
  bottomRight : List PageContent
deriving DecidableEq, Repr

/-- The `@page cover` rule (template lines 7-10): margin 0, no header or
footer. -/
def coverPageStyle : PageStyle :=
  { name := "cover", topCenter := [], bottomLeft := [], bottomRight := [] }

/-- The `@page toc_page` rule (template lines 11-17): default header and
footer disabled via `content: normal`. -/
def tocPageStyle : PageStyle :=
  { name := "toc_page", topCenter := [], bottomLeft := [], bottomRight := [] }

/-- The `@page content_page` rule (template lines 18-36): running header
with the report title, footer with the generation date on the left and
`"Page " counter(page) " of " counter(pages)` on the right. -/
def contentPageStyle : PageStyle :=
  { name := "content_page",
    topCenter := [.text "{{ report_title }}"],
    bottomLeft := [.text "Generated: {{ date }}"],
    bottomRight := [.text "Page ", .counterPage, .text " of ", .counterPages] }

/-- One CSS declaration. -/
structure CssDecl where
  prop : String
  value : String
deriving DecidableEq, Repr

/-- One CSS rule: selector and declarations. -/
structure CssRule where
  selector : String
  decls : List CssDecl
deriving DecidableEq, Repr

/-- The template's style rules relevant to pagination and the table of
contents, transcribed from report_template.html.bak. -/
def templateStyleRules : List CssRule :=
  [ { selector := ".cover-page",
      decls := [⟨"page", "cover"⟩, ⟨"page-break-after", "always"⟩,
                ⟨"display", "flex"⟩, ⟨"min-height", "25cm"⟩] },
    { selector := ".toc",
      decls := [⟨"page", "toc_page"⟩, ⟨"page-break-after", "always"⟩] },
    { selector := ".toc-page::before",
      decls := [⟨"content", "target-counter(attr(href), page)"⟩] },
    { selector := ".content",
      decls := [⟨"page", "content_page"⟩] },
    { selector := "pre",
      decls := [⟨"white-space", "pre-wrap"⟩, ⟨"word-wrap", "break-word"⟩,
                ⟨"page-break-inside", "avoid"⟩] },
    { selector := "table",
      decls := [⟨"border-collapse", "collapse"⟩, ⟨"width", "100%"⟩,
                ⟨"page-break-inside", "avoid"⟩] },
    { selector := "img",
      decls := [⟨"max-width", "100%"⟩, ⟨"height", "auto"⟩,
                ⟨"page-break-inside", "avoid"⟩] },
    { selector := ".competitor-section",
      decls := [⟨"page-break-before", "always"⟩, ⟨"margin-top", "2cm"⟩] } ]

/-- Look up the value of a declaration in the template's style rules. -/
def cssValue (selector prop : String) : Option String :=
  match templateStyleRules.find? (fun r => r.selector = selector) with
  | some r =>
      match r.decls.find? (fun d => d.prop = prop) with
      | some d => some d.value
      | none => none
  | none => none

/-- One top-level section of the rendered document body. -/
inductive DocSection
  | cover
  | toc
  | contentBlock (competitorWrapped : Bool) (markdown : String)
deriving DecidableEq, Repr

/-- The template body (template lines 160-185): one cover page, one table
of contents, then the content. -/
def templateBody (markdown : String) : List DocSection :=
  [.cover, .toc, .contentBlock false markdown]

/-- Modelled from the spec: combined document generation for several
completed competitors (spec section 4.2).  The merging code is not in the
source tree; per the spec the individual reports are concatenated into the
single template body — one shared cover page, one shared table of contents
— with each competitor's section wrapped so that the template's
`.competitor-section { page-break-before: always }` rule forces a page
break before it. -/
def combinedBody (reports : List String) : List DocSection :=
  [DocSection.cover, DocSection.toc] ++ reports.map (fun r => .contentBlock true r)

/-- Count how many sections of a body are the cover page. -/
def coverCount (body : List DocSection) : Nat :=
  (body.filter (fun s => s = DocSection.cover)).length

/-- Count how many sections of a body are the table of contents. -/
def tocCount (body : List DocSection) : Nat :=
  (body.filter (fun s => s = DocSection.toc)).length

/-! ### Theorems -/

/-- Helper: membership after inserting into a ranked list. -/
theorem mem_insertRanked (score : CorpusChunk → Int) (c a : CorpusChunk)
    (l : List CorpusChunk) : a ∈ insertRanked score c l ↔ a = c ∨ a ∈ l := by
  induction l with
  | nil => simp [insertRanked]
  | cons d ds ih =>
      by_cases h : score d < score c
      · simp [insertRanked, h]
      · simp [insertRanked, h, ih]
        tauto

/-- Helper: ranking is a reordering, so membership is preserved. -/
theorem mem_rankByScore (score : CorpusChunk → Int) (a : CorpusChunk)
    (l : List CorpusChunk) : a ∈ rankByScore score l ↔ a ∈ l := by
  induction l with
  | nil => simp [rankByScore]
  | cons c cs ih => simp [rankByScore, mem_insertRanked, ih]

/-- C9: every sequence of StateManager update operations applied to a fresh
manager is wiped out by `resetState`: `getState` afterwards returns the
constructor state — companyId and companyDetails null, the three lists
empty, all loading flags false, all error fields null. -/
theorem claim_C9_reset_restores_initial {α β γ δ : Type}
    (ops : List (UpdateOp α β γ δ)) :
    getState (resetAppState (applyUpdates ops initialAppState)) =
      (initialAppState : AppState α β γ δ) ∧
    (resetAppState (applyUpdates ops (initialAppState : AppState α β γ δ))).companyId = none ∧
    (resetAppState (applyUpdates ops (initialAppState : AppState α β γ δ))).companyDetails = none ∧
    (resetAppState (applyUpdates ops (initialAppState : AppState α β γ δ))).competitors = [] ∧
    (resetAppState (applyUpdates ops (initialAppState : AppState α β γ δ))).news = [] ∧
    (resetAppState (applyUpdates ops (initialAppState : AppState α β γ δ))).insights = [] ∧
    (resetAppState (applyUpdates ops (initialAppState : AppState α β γ δ))).isLoading =
      ⟨false, false, false, false⟩ ∧
    (resetAppState (applyUpdates ops (initialAppState : AppState α β γ δ))).errors =
      ⟨none, none, none, none⟩ :=
  ⟨rfl, rfl, rfl, rfl, rfl, rfl, rfl, rfl⟩

/-- C10: the unsubscribe closure returned by `subscribe` removes exactly its
own callback: afterwards no update invokes that callback, every other
subscribed callback is still invoked exactly once per update, and the
invocation order is the original subscription order. -/
theorem claim_C10_unsubscribe_removes_callback {α β γ δ : Type}
    (m : ManagerModel α β γ δ) (cb : Nat) (op : UpdateOp α β γ δ)
    (hnd : m.subscribers.Nodup) :
    cb ∉ (applyUpdateM op (unsubscribeCb cb m)).2 ∧
    (applyUpdateM op (unsubscribeCb cb m)).2.Sublist m.subscribers ∧
    (∀ d ∈ m.subscribers, d ≠ cb →
      (applyUpdateM op (unsubscribeCb cb m)).2.count d = 1) ∧
    (applyUpdateM op (unsubscribeCb cb m)).2 =
      m.subscribers.filter (fun s => s ≠ cb) := by
  refine ⟨?_, ?_, ?_, rfl⟩
  · simp [applyUpdateM, unsubscribeCb]
  · exact List.filter_sublist m.subscribers
  · intro d hd hne
    have hmem : d ∈ m.subscribers.filter (fun s => s ≠ cb) := by
      simp [List.mem_filter, hd, hne]
    have hfnd : (m.subscribers.filter (fun s => s ≠ cb)).Nodup := hnd.filter _
    exact List.count_eq_one_of_mem hfnd hmem

/-- C10 witness: concrete instance with subscribers 7, 3, 5 and callback 3
unsubscribed. -/
theorem claim_C10_witness :
    (([7, 3, 5] : List Nat).Nodup) ∧
    3 ∉ (applyUpdateM (UpdateOp.setCompanyId none)
      (unsubscribeCb 3
        ({ state := initialAppState, subscribers := [7, 3, 5] }
          : ManagerModel Unit Unit Unit Unit))).2 :=
  ⟨by decide,
   (claim_C10_unsubscribe_removes_callback
      ({ state := initialAppState, subscribers := [7, 3, 5] }
        : ManagerModel Unit Unit Unit Unit)
      3 (UpdateOp.setCompanyId none) (by decide)).1⟩

/-- C1: `deep_research_status` moves only along the allowed edges
not_started → pending, pending → completed, pending → error and
error → pending (besides stuttering); a trigger on a pending competitor is
a no-op that stays pending and enqueues nothing; a plain trigger on a
completed competitor leaves it unchanged; a fresh trigger on an errored
competitor re-enters pending. -/
theorem claim_C1_status_transitions (c : ResearchState) (d : String) (r : Bool) :
    allowedEdge c.status (drStep (.trigger false) c).status = true ∧
    allowedEdge c.status (drStep (.finishJob d) c).status = true ∧
    allowedEdge c.status (drStep .failJob c).status = true ∧
    (c.status = .pending → triggerResearch r c = ⟨c, .pending, false⟩) ∧
    (c.status = .completed → triggerResearch false c = ⟨c, .completed, false⟩) ∧
    (c.status = .error →
      (triggerResearch r c).state.status = .pending ∧ (triggerResearch r c).started = true) := by
  rcases c with ⟨s, doc, f, j⟩
  cases s <;> simp [drStep, triggerResearch, allowedEdge]

/-- C1 witness: the pending no-op, the completed guard and the error
re-trigger at concrete records, plus an allowed edge from the fresh state. -/
theorem claim_C1_witness :
    triggerResearch true { status := .pending, doc := none, inFlight := 1, jobsStarted := 1 } =
      ⟨{ status := .pending, doc := none, inFlight := 1, jobsStarted := 1 }, .pending, false⟩ ∧
    triggerResearch false { status := .completed, doc := some "m", inFlight := 0, jobsStarted := 1 } =
      ⟨{ status := .completed, doc := some "m", inFlight := 0, jobsStarted := 1 }, .completed, false⟩ ∧
    (triggerResearch true { status := .error, doc := none, inFlight := 0, jobsStarted := 1 }).state.status
      = .pending ∧
    allowedEdge DRStatus.not_started (drStep (.trigger false) initialResearch).status = true :=
  ⟨(claim_C1_status_transitions ⟨.pending, none, 1, 1⟩ "d" true).2.2.2.1 rfl,
   (claim_C1_status_transitions ⟨.completed, some "m", 0, 1⟩ "d" false).2.2.2.2.1 rfl,
   ((claim_C1_status_transitions ⟨.error, none, 0, 1⟩ "d" true).2.2.2.2.2 rfl).1,
   (claim_C1_status_transitions initialResearch "d" true).1⟩

/-- C2: the deep-research trigger is idempotent.  From `not_started`,
triggering twice starts exactly one job and both calls observe `pending`;
triggering a pending or completed competitor returns the existing status
without enqueueing; and the in-flight invariant (at most one concurrent
job per competitor) is preserved by every job-manager step. -/
theorem claim_C2_trigger_idempotent (c : ResearchState) (h : c.status = .not_started) :
    (triggerResearch false c).observed = .pending ∧
    (triggerResearch false c).started = true ∧
    (triggerResearch false (triggerResearch false c).state).observed = .pending ∧
    (triggerResearch false (triggerResearch false c).state).started = false ∧
    (triggerResearch false (triggerResearch false c).state).state = (triggerResearch false c).state ∧
    (triggerResearch false c).state.jobsStarted = c.jobsStarted + 1 ∧
    (∀ c2 : ResearchState, c2.status = .pending ∨ c2.status = .completed →
      triggerResearch false c2 = ⟨c2, c2.status, false⟩) ∧
    (∀ (c2 : ResearchState) (e : DREvent), drInv c2 → drInv (drStep e c2)) := by
  rcases c with ⟨s, doc, f, j⟩
  simp only at h
  subst h
  refine ⟨rfl, rfl, rfl, rfl, rfl, rfl, ?_, ?_⟩
  · intro c2 hc2
    rcases c2 with ⟨s2, doc2, f2, j2⟩
    rcases hc2 with h2 | h2 <;> simp only at h2 <;> subst h2 <;>
      simp [triggerResearch]
  · intro c2 e hinv
    rcases c2 with ⟨s2, doc2, f2, j2⟩
    rcases hinv with ⟨hle, hiff⟩
    simp only at hle hiff
    cases e with
    | trigger r =>
        cases s2 <;> simp_all [drStep, triggerResearch, drInv] <;>
          first
          | omega
          | (cases r <;> simp [triggerResearch, drInv] <;> omega)
    | finishJob d2 =>
        cases s2 <;> simp_all [drStep, drInv]
    | failJob =>
        cases s2 <;> simp_all [drStep, drInv]

/-- C2 witness: both trigger calls on a fresh competitor observe pending
and exactly one job is enqueued. -/
theorem claim_C2_witness :
    initialResearch.status = .not_started ∧
    (triggerResearch false initialResearch).observed = .pending ∧
    (triggerResearch false initialResearch).started = true ∧
    (triggerResearch false (triggerResearch false initialResearch).state).started = false ∧
    (triggerResearch false initialResearch).state.jobsStarted =
      initialResearch.jobsStarted + 1 := by
  have h := claim_C2_trigger_idempotent initialResearch rfl
  exact ⟨rfl, h.1, h.2.1, h.2.2.2.1, h.2.2.2.2.2.1⟩

/-- Helper: one insight-store step either leaves a company's readable set
unchanged or installs, whole, the set of a commit event for that company. -/
theorem readInsights_refreshStep (e : RefreshEvent) (st : InsightStoreState) (c : String) :
    readInsights c (refreshStep e st) = readInsights c st ∨
    ∃ newSet, e = .commitRefresh c newSet ∧ readInsights c (refreshStep e st) = newSet := by
  cases e with
  | beginRefresh c2 =>
      left
      by_cases h : st.refreshInFlight c2 <;> simp [refreshStep, readInsights, h]
  | commitRefresh c2 newSet =>
      by_cases h : st.refreshInFlight c2
      · by_cases hc : c = c2
        · subst hc
          right
          exact ⟨newSet, rfl, by simp [refreshStep, readInsights, h]⟩
        · left
          simp [refreshStep, readInsights, h, hc]
      · left
        simp [refreshStep, readInsights, h]

/-- Helper: extending the trace only adds committed sets. -/
theorem committedSets_mem_cons (c : String) (e : RefreshEvent) (es : List RefreshEvent)
    (x : List InsightRec) (hx : x ∈ committedSets c es) : x ∈ committedSets c (e :: es) := by
  cases e with
  | beginRefresh c2 => simpa [committedSets, List.filterMap_cons] using hx
  | commitRefresh c2 newSet =>
      by_cases h : c2 = c
      · have heq : committedSets c (RefreshEvent.commitRefresh c2 newSet :: es) =
            newSet :: committedSets c es := by
          simp [committedSets, List.filterMap_cons, h]
        rw [heq]
        exact List.mem_cons_of_mem _ hx
      · have heq : committedSets c (RefreshEvent.commitRefresh c2 newSet :: es) =
            committedSets c es := by
          simp [committedSets, List.filterMap_cons, h]
        rw [heq]
        exact hx

/-- Helper: a commit's own set is among the committed sets of its trace. -/
theorem committedSets_self (c : String) (newSet : List InsightRec) (es : List RefreshEvent) :
    newSet ∈ committedSets c (RefreshEvent.commitRefresh c newSet :: es) := by
  simp [committedSets, List.filterMap_cons]

/-- Helper: along any event trace, a reader of a company's insights sees
either the starting whole set or a whole committed set, never a mixture. -/
theorem insight_read_whole_set (es : List RefreshEvent) (st : InsightStoreState) (c : String) :
    readInsights c (refreshRun es st) ∈ readInsights c st :: committedSets c es := by
  induction es generalizing st with
  | nil => simp [refreshRun, committedSets]
  | cons e es ih =>
      have hrun : refreshRun (e :: es) st = refreshRun es (refreshStep e st) := rfl
      rw [hrun]
      have h := ih (refreshStep e st)
      rcases List.mem_cons.mp h with hhead | htail
      · rcases readInsights_refreshStep e st c with heq | ⟨newSet, hev, heq⟩
        · rw [hhead, heq]
          exact List.mem_cons_self _ _
        · subst hev
          rw [hhead, heq]
          exact List.mem_cons_of_mem _ (committedSets_self c newSet es)
      · exact List.mem_cons_of_mem _ (committedSets_mem_cons c e es _ htail)

/-- C3: insight-set replacement is atomic per company — along any trace of
refresh events a reader observes either the initial whole set or the whole
set installed by some commit, never a mixed set — and a refresh request
for a company whose refresh is already in flight is rejected, leaving the
store unchanged. -/
theorem claim_C3_insight_refresh_atomic (es : List RefreshEvent) (st : InsightStoreState)
    (c : String) :
    readInsights c (refreshRun es st) ∈ readInsights c st :: committedSets c es ∧
    (∀ st2 : InsightStoreState, st2.refreshInFlight c = true →
      refreshStep (.beginRefresh c) st2 = st2) := by
  refine ⟨insight_read_whole_set es st c, ?_⟩
  intro st2 h
  simp [refreshStep, h]

/-- C3 witness: a concrete one-commit trace for company "acme", and the
rejection of a begin while a refresh is in flight. -/
theorem claim_C3_witness :
    refreshStep (.beginRefresh "acme")
      ({ insightsOf := fun _ => [], refreshInFlight := fun _ => true } : InsightStoreState) =
      ({ insightsOf := fun _ => [], refreshInFlight := fun _ => true } : InsightStoreState) ∧
    readInsights "acme"
        (refreshRun [RefreshEvent.commitRefresh "acme" [⟨"i1", "t", "d", "market", "high"⟩]]
          ({ insightsOf := fun _ => [], refreshInFlight := fun _ => true } : InsightStoreState)) ∈
      readInsights "acme"
          ({ insightsOf := fun _ => [], refreshInFlight := fun _ => true } : InsightStoreState) ::
        committedSets "acme"
          [RefreshEvent.commitRefresh "acme" [⟨"i1", "t", "d", "market", "high"⟩]] := by
  have h := claim_C3_insight_refresh_atomic
    [RefreshEvent.commitRefresh "acme" [⟨"i1", "t", "d", "market", "high"⟩]]
    ({ insightsOf := fun _ => [], refreshInFlight := fun _ => true } : InsightStoreState) "acme"
  exact ⟨h.2 ({ insightsOf := fun _ => [], refreshInFlight := fun _ => true }) rfl, h.1⟩

/-- Helper: a fresh identifier has no entry in a well-formed stage table. -/
theorem tableLookup_fresh {π : Type} (n : Nat) (t : List (Nat × List π))
    (h : ∀ e ∈ t, e.1 < n) : tableLookup n t = [] := by
  unfold tableLookup
  have hn : t.find? (fun e => e.1 = n) = none := by
    rw [List.find?_eq_none]
    intro e he
    simp only [decide_eq_true_eq]
    exact Nat.ne_of_lt (h e he)
  rw [hn]

/-- C4: for every name with non-empty trim, `startAnalysis` synchronously
returns the new company identifier in a `{id, name, welcome_message}`
body, having created the Company record with the placeholder description,
while no stage table (competitors, news, insights) yet has data for that
identifier. -/
theorem claim_C4_start_analysis_synchronous {κ ν ι : Type} (name : String)
    (st : AnalysisStore κ ν ι) (hname : trimString name ≠ "") (hwf : storeWF st) :
    ∃ resp st2, startAnalysis name st = some (resp, st2) ∧
      resp.id = st.nextId ∧
      resp.name = trimString name ∧
      resp.welcome_message = welcomeMessage (trimString name) ∧
      (∃ comp ∈ st2.companies, comp.id = resp.id ∧ comp.name = trimString name ∧
        comp.description = placeholderDescription) ∧
      tableLookup st.nextId st2.competitorTable = [] ∧
      tableLookup st.nextId st2.newsTable = [] ∧
      tableLookup st.nextId st2.insightTable = [] := by
  unfold startAnalysis
  rw [if_neg hname]
  refine ⟨_, _, rfl, rfl, rfl, rfl, ?_, ?_, ?_, ?_⟩
  · exact ⟨{ id := st.nextId, name := trimString name,
             description := placeholderDescription, industry := none }, by simp, rfl, rfl, rfl⟩
  · exact tableLookup_fresh st.nextId st.competitorTable hwf.2.1
  · exact tableLookup_fresh st.nextId st.newsTable hwf.2.2.1
  · exact tableLookup_fresh st.nextId st.insightTable hwf.2.2.2

/-- C4 witness: starting analysis for " Acme " on an empty store. -/
theorem claim_C4_witness :
    trimString " Acme " ≠ "" ∧
    storeWF ({ companies := [], competitorTable := [], newsTable := [],
               insightTable := [], nextId := 0 } : AnalysisStore Unit Unit Unit) ∧
    ∃ resp st2, startAnalysis " Acme "
        ({ companies := [], competitorTable := [], newsTable := [],
           insightTable := [], nextId := 0 } : AnalysisStore Unit Unit Unit) =
        some (resp, st2) ∧
      resp.id = 0 ∧
      resp.name = trimString " Acme " ∧
      resp.welcome_message = welcomeMessage (trimString " Acme ") ∧
      (∃ comp ∈ st2.companies, comp.id = resp.id ∧ comp.name = trimString " Acme " ∧
        comp.description = placeholderDescription) ∧
      tableLookup 0 st2.competitorTable = [] ∧
      tableLookup 0 st2.newsTable = [] ∧
      tableLookup 0 st2.insightTable = [] := by
  refine ⟨by decide, ⟨?_, ?_, ?_, ?_⟩, ?_⟩
  · intro c hc
    simp at hc
  · intro e he
    simp at he
  · intro e he
    simp at he
  · intro e he
    simp at he
  · exact claim_C4_start_analysis_synchronous " Acme "
      ({ companies := [], competitorTable := [], newsTable := [],
         insightTable := [], nextId := 0 } : AnalysisStore Unit Unit Unit)
      (by decide)
      ⟨fun c hc => by simp at hc, fun e he => by simp at he,
       fun e he => by simp at he, fun e he => by simp at he⟩

/-- C5: retrieval is scoped per company — every chunk returned by
`retrieve(companyId, query, k)` carries provenance whose `company_id`
equals the query's company; chunks of other companies are never returned. -/
theorem claim_C5_retrieval_company_scoped (embed : String → List Int)
    (corpus : List CorpusChunk) (companyId query : String) (k : Nat) (c : CorpusChunk)
    (hc : c ∈ retrieve embed corpus companyId query k) :
    c.provenance.company_id = companyId := by
  unfold retrieve at hc
  have h1 := List.mem_of_mem_take hc
  have h2 := (mem_rankByScore _ _ _).mp h1
  have h3 := List.mem_filter.mp h2
  simpa using h3.2

/-- C5 witness: a one-chunk corpus for company "acme". -/
theorem claim_C5_witness :
    (⟨"Beta Corp overview", [1, 2], ⟨"competitor", "beta", "acme"⟩⟩ : CorpusChunk) ∈
      retrieve (fun _ => [1, 0])
        [⟨"Beta Corp overview", [1, 2], ⟨"competitor", "beta", "acme"⟩⟩] "acme" "q" 5 ∧
    (⟨"Beta Corp overview", [1, 2], ⟨"competitor", "beta", "acme"⟩⟩
      : CorpusChunk).provenance.company_id = "acme" := by
  refine ⟨by decide, ?_⟩
  exact claim_C5_retrieval_company_scoped (fun _ => [1, 0])
    [⟨"Beta Corp overview", [1, 2], ⟨"competitor", "beta", "acme"⟩⟩] "acme" "q" 5
    ⟨"Beta Corp overview", [1, 2], ⟨"competitor", "beta", "acme"⟩⟩ (by decide)

/-- C6: on an empty corpus for a company, retrieval returns the empty list
rather than an error, and chat still calls the generative provider — with
the explicit no-data framing and nothing company-specific in the prompt —
returning an empty sources list; under the provider contract that the
no-data framing yields an insufficiency answer, the returned answer
indicates insufficient data. -/
theorem claim_C6_empty_corpus_chat (provider : String → String)
    (embed : String → List Int) (corpus : List CorpusChunk)
    (companyId query : String) (k : Nat) (insufficiencyNote : String → Prop)
    (hcorpus : ∀ ch ∈ corpus, ch.provenance.company_id ≠ companyId)
    (hprov : ∀ q : String,
      insufficiencyNote (provider (noDataFraming ++ " Question: " ++ q))) :
    retrieve embed corpus companyId query k = [] ∧
    (answerChat provider embed corpus companyId query k).sources = [] ∧
    (answerChat provider embed corpus companyId query k).answer =
      provider (noDataFraming ++ " Question: " ++ query) ∧
    insufficiencyNote ((answerChat provider embed corpus companyId query k).answer) := by
  have hfilter : corpus.filter (fun ch => ch.provenance.company_id = companyId) = [] := by
    rw [List.filter_eq_nil_iff]
    intro a ha
    simpa using hcorpus a ha
  have hret : retrieve embed corpus companyId query k = [] := by
    unfold retrieve
    rw [hfilter]
    simp [rankByScore]
  refine ⟨hret, ?_, ?_, ?_⟩
  · simp [answerChat, hret]
  · simp [answerChat, hret, buildPrompt]
  · have : (answerChat provider embed corpus companyId query k).answer =
        provider (noDataFraming ++ " Question: " ++ query) := by
      simp [answerChat, hret, buildPrompt]
    rw [this]
    exact hprov query

/-- C6 witness: empty corpus, a provider that answers the no-data framing
with an insufficiency notice. -/
theorem claim_C6_witness :
    retrieve (fun _ => []) [] "acme" "who leads?" 5 = [] ∧
    (answerChat (fun _ => "I have insufficient data to answer that.") (fun _ => [])
      [] "acme" "who leads?" 5).sources = [] ∧
    (answerChat (fun _ => "I have insufficient data to answer that.") (fun _ => [])
      [] "acme" "who leads?" 5).answer = "I have insufficient data to answer that." := by
  have h := claim_C6_empty_corpus_chat
    (fun _ => "I have insufficient data to answer that.") (fun _ => []) [] "acme"
    "who leads?" 5 (fun s => s = "I have insufficient data to answer that.")
    (fun ch hch => by simp at hch) (fun _ => rfl)
  exact ⟨h.1, h.2.1, h.2.2.2⟩

/-- C7: every element of the `GET /company/{id}/competitors` response
carries the stored competitor's `deep_research_status`, and every element
whose status is completed carries `deep_research_markdown` holding the
research document text; the supporting invariant (completed implies a
stored document) holds initially and is preserved by every job-manager
step. -/
theorem claim_C7_competitors_response (cs : List CompetitorRec) (cid : String)
    (hinv : ∀ comp ∈ cs, researchDocInv comp.research) :
    (∀ (s : ResearchState) (e : DREvent), researchDocInv s → researchDocInv (drStep e s)) ∧
    researchDocInv initialResearch ∧
    (∀ out ∈ getCompanyCompetitors cs cid,
      (∃ comp ∈ cs, comp.companyId = cid ∧
        out.deep_research_status = comp.research.status) ∧
      (out.deep_research_status = .completed →
        ∃ text, out.deep_research_markdown = some text)) := by
  refine ⟨?_, ?_, ?_⟩
  · intro s e hs
    rcases s with ⟨st, doc, f, j⟩
    cases e with
    | trigger r =>
        cases st <;> cases r <;>
          simp_all [drStep, triggerResearch, researchDocInv]
    | finishJob d => cases st <;> simp_all [drStep, researchDocInv]
    | failJob => cases st <;> simp_all [drStep, researchDocInv]
  · intro h
    simp [initialResearch] at h
  · intro out hout
    unfold getCompanyCompetitors at hout
    rcases List.mem_map.mp hout with ⟨comp, hmem, hser⟩
    have hfil := List.mem_filter.mp hmem
    refine ⟨⟨comp, hfil.1, by simpa using hfil.2, by rw [← hser]; rfl⟩, ?_⟩
    intro hcompl
    rw [← hser] at hcompl ⊢
    simp only [serializeCompetitor] at hcompl ⊢
    rw [if_pos hcompl]
    have hsome := hinv comp hfil.1 hcompl
    exact Option.isSome_iff_exists.mp hsome

/-- C7 witness: one completed competitor of company "acme" holding its
markdown, one pending competitor. -/
theorem claim_C7_witness :
    (∀ comp ∈
      [(⟨"beta", "acme", "Beta Corp", none, [], [],
          ⟨.completed, some "# Beta Corp report", 0, 1⟩⟩ : CompetitorRec),
       ⟨"gamma", "acme", "Gamma Inc", none, [], [],
          ⟨.pending, none, 1, 1⟩⟩],
      researchDocInv comp.research) ∧
    (∀ out ∈ getCompanyCompetitors
      [(⟨"beta", "acme", "Beta Corp", none, [], [],
          ⟨.completed, some "# Beta Corp report", 0, 1⟩⟩ : CompetitorRec),
       ⟨"gamma", "acme", "Gamma Inc", none, [], [],
          ⟨.pending, none, 1, 1⟩⟩] "acme",
      (out.deep_research_status = .completed →
        ∃ text, out.deep_research_markdown = some text)) := by
  have h := claim_C7_competitors_response
    [(⟨"beta", "acme", "Beta Corp", none, [], [],
        ⟨.completed, some "# Beta Corp report", 0, 1⟩⟩ : CompetitorRec),
     ⟨"gamma", "acme", "Gamma Inc", none, [], [],
        ⟨.pending, none, 1, 1⟩⟩] "acme"
    (by intro comp hc
        fin_cases hc <;> intro h2 <;> simp_all)
  refine ⟨?_, fun out hout => (h.2.2 out hout).2⟩
  intro comp hc
  fin_cases hc <;> intro h2 <;> simp_all

/-- Helper: competitor content blocks contribute no cover page. -/
theorem filter_cover_content (reports : List String) :
    (reports.map (fun r => DocSection.contentBlock true r)).filter
      (fun s => s = DocSection.cover) = [] := by
  induction reports with
  | nil => rfl
  | cons r rs ih => simp [ih]

/-- Helper: competitor content blocks contribute no table of contents. -/
theorem filter_toc_content (reports : List String) :
    (reports.map (fun r => DocSection.contentBlock true r)).filter
      (fun s => s = DocSection.toc) = [] := by
  induction reports with
  | nil => rfl
  | cons r rs ih => simp [ih]

/-- C8: the rendered artifact has a cover page and a table of contents
whose entries resolve to page numbers through the target page counter; the
content pages carry a running header and a footer showing the current and
total page count; code blocks, tables and images are protected from being
split across pages; and a combined document for several competitors keeps
exactly one shared cover page and one shared table of contents, with each
competitor's section forced onto a new page. -/
theorem claim_C8_report_rendering (reports : List String) :
    contentPageStyle.topCenter = [.text "{{ report_title }}"] ∧
    PageContent.counterPage ∈ contentPageStyle.bottomRight ∧
    PageContent.counterPages ∈ contentPageStyle.bottomRight ∧
    cssValue ".toc-page::before" "content" = some "target-counter(attr(href), page)" ∧
    cssValue "pre" "page-break-inside" = some "avoid" ∧
    cssValue "table" "page-break-inside" = some "avoid" ∧
    cssValue "img" "page-break-inside" = some "avoid" ∧
    cssValue ".competitor-section" "page-break-before" = some "always" ∧
    cssValue ".cover-page" "page-break-after" = some "always" ∧
    cssValue ".toc" "page-break-after" = some "always" ∧
    combinedBody reports =
      DocSection.cover :: DocSection.toc ::
        reports.map (fun r => DocSection.contentBlock true r) ∧
    coverCount (combinedBody reports) = 1 ∧
    tocCount (combinedBody reports) = 1 ∧
    (∀ r ∈ reports, DocSection.contentBlock true r ∈ combinedBody reports) := by
  refine ⟨rfl, ?_, ?_, rfl, rfl, rfl, rfl, rfl, rfl, rfl, rfl, ?_, ?_, ?_⟩
  · simp [contentPageStyle]
  · simp [contentPageStyle]
  · simp only [coverCount, combinedBody]
    rw [List.filter_append, filter_cover_content]
    rfl
  · simp only [tocCount, combinedBody]
    rw [List.filter_append, filter_toc_content]
    rfl
  · intro r hr
    show DocSection.contentBlock true r ∈
      [DocSection.cover, DocSection.toc] ++
        reports.map (fun r2 => DocSection.contentBlock true r2)
    exact List.mem_append_right _ (List.mem_map.mpr ⟨r, hr, rfl⟩)

/-- C8 witness: a combined document for two completed competitors. -/
theorem claim_C8_witness :
    coverCount (combinedBody ["# Beta Corp report", "# Gamma Inc report"]) = 1 ∧
    tocCount (combinedBody ["# Beta Corp report", "# Gamma Inc report"]) = 1 ∧
    DocSection.contentBlock true "# Gamma Inc report" ∈
      combinedBody ["# Beta Corp report", "# Gamma Inc report"] ∧
    cssValue ".competitor-section" "page-break-before" = some "always" := by
  have h := claim_C8_report_rendering ["# Beta Corp report", "# Gamma Inc report"]
  exact ⟨h.2.2.2.2.2.2.2.2.2.2.2.1, h.2.2.2.2.2.2.2.2.2.2.2.2.1,
    h.2.2.2.2.2.2.2.2.2.2.2.2.2 "# Gamma Inc report" (by simp),
    h.2.2.2.2.2.2.2.1⟩
